import Mathlib

/-!
Verification development for the i4CastleApp sample
(src/Assignment2/i4CastleApp/i4CastleApp.cpp).

The file shallowly embeds the parts of the program that the checked
properties concern: the frame-resource ring with its fence bookkeeping
(`Update` / `Draw`), the per-object and per-material dirty-count update
propagation (`UpdateObjectCBs` / `UpdateMaterialBuffer`), the geometry
packing of `BuildShapeGeometry`, the error path of `WinMain`, and the
scene data built by `BuildMaterials` / `BuildRenderItems`.
-/

namespace Castle

/-! ## Frame resource ring (i4CastleApp::Update, i4CastleApp::Draw) -/

/-- `const int gNumFrameResources = 3;` (i4CastleApp.cpp line 19). -/
def gNumFrameResources : Nat := 3

/-- The fence-related state of the application: the ring position
`mCurrFrameResourceIndex`, each FrameResource's recorded `Fence` field
(indexed by slot), and the global counter `mCurrentFence`. -/
structure RingState where
  currFrameResourceIndex : Nat
  frameFence : Nat → Nat
  currentFence : Nat

/-- Modelled from the spec: the initial values of `mCurrentFence`
(declared in d3dApp.h, which is absent from the sources) and of each
`FrameResource::Fence` (FrameResource.h, also absent).  The spec states
that the fence counter starts at 0 and that a slot whose recorded fence
value is 0 was never submitted, so both start at 0.
`mCurrFrameResourceIndex` starts at 0 (i4CastleApp.cpp line 99). -/
def initRing : RingState :=
  { currFrameResourceIndex := 0
    frameFence := fun _ => 0
    currentFence := 0 }

/-- `mCurrFrameResourceIndex = (mCurrFrameResourceIndex + 1) % gNumFrameResources;`
(i4CastleApp.cpp line 210): cycle through the circular frame resource array. -/
def advanceFrameIndex (s : RingState) : RingState :=
  { s with currFrameResourceIndex := (s.currFrameResourceIndex + 1) % gNumFrameResources }

/-- The wait decision of `Update` (i4CastleApp.cpp line 215): given the
GPU's completed value `mFence->GetCompletedValue()`, the thread must wait
for the current slot's fence exactly when
`mCurrFrameResource->Fence != 0 && completed < mCurrFrameResource->Fence`.
Returns the fence value waited upon, or `none` when no wait happens. -/
def fenceWaitTarget (s : RingState) (gpuCompleted : Nat) : Option Nat :=
  if s.frameFence s.currFrameResourceIndex ≠ 0 ∧
      gpuCompleted < s.frameFence s.currFrameResourceIndex then
    some (s.frameFence s.currFrameResourceIndex)
  else none

/-- The slot-acquisition part of `Update` (i4CastleApp.cpp lines 210-221):
advance the ring index; if the wait condition holds at the observed GPU
completed value the thread blocks (`WaitForSingleObject(eventHandle, INFINITE)`,
modelled as `none`: the slot is not handed out at this completed value);
otherwise the advanced state is returned and the slot is populated. -/
def updateAcquire (s : RingState) (gpuCompleted : Nat) : Option RingState :=
  match fenceWaitTarget (advanceFrameIndex s) gpuCompleted with
  | some _ => none
  | none => some (advanceFrameIndex s)

/-- The fence bookkeeping of `Draw` (i4CastleApp.cpp lines 291-296):
`mCurrFrameResource->Fence = ++mCurrentFence;` followed by
`mCommandQueue->Signal(mFence.Get(), mCurrentFence);`. -/
def drawSubmitFence (s : RingState) : RingState :=
  let newFence := s.currentFence + 1
  { s with
    currentFence := newFence
    frameFence := fun j => if j = s.currFrameResourceIndex then newFence else s.frameFence j }

/-- One frame of the main loop as it affects the fence state: `Update`
advances the ring index (the wait mutates nothing), `Draw` submits and
records the freshly incremented fence. -/
def frameStep (s : RingState) : RingState :=
  drawSubmitFence (advanceFrameIndex s)

/-- The fence state after `k` frames starting from the initial state. -/
def framesAfter : Nat → RingState
  | 0 => initRing
  | k + 1 => frameStep (framesAfter k)

/-- The ring-index successor `(i + 1) % N`, abstracted over the ring size. -/
def advanceIndex (N i : Nat) : Nat := (i + 1) % N

/-- `k` successive ring-index advances. -/
def iterAdvance (N : Nat) : Nat → Nat → Nat
  | 0, i => i
  | k + 1, i => iterAdvance N k (advanceIndex N i)

theorem iterAdvance_mod (N : Nat) (k i : Nat) :
    iterAdvance N k (i % N) = (i + k) % N := by
  induction k generalizing i with
  | zero => simp [iterAdvance]
  | succ k ih =>
    have h1 : advanceIndex N (i % N) = (i + 1) % N := by
      simp [advanceIndex, Nat.mod_add_mod]
    calc iterAdvance N (k + 1) (i % N)
        = iterAdvance N k ((i + 1) % N) := by simp [iterAdvance, h1]
      _ = (i + 1 + k) % N := ih (i + 1)
      _ = (i + (k + 1)) % N := by ring_nf

theorem iterAdvance_period (N i : Nat) (hi : i < N) :
    iterAdvance N N i = i := by
  have h0 : i % N = i := Nat.mod_eq_of_lt hi
  have := iterAdvance_mod N N i
  rw [h0] at this
  rw [this, Nat.add_mod_right, h0]

theorem iterAdvance_no_early_return (N i k : Nat) (hi : i < N)
    (hk0 : 0 < k) (hkN : k < N) : iterAdvance N k i ≠ i := by
  have h0 : i % N = i := Nat.mod_eq_of_lt hi
  have hv : iterAdvance N k i = (i + k) % N := by
    have := iterAdvance_mod N k i
    rwa [h0] at this
  rw [hv]
  intro h
  have hmod : (i + k) % N = i % N := by rw [h, h0]
  have hdvd : N ∣ (i + k) - i := (Nat.modEq_iff_dvd' (Nat.le_add_right i k)).mp hmod.symm
  have hk : N ∣ k := by simpa using hdvd
  exact absurd (Nat.le_of_dvd hk0 hk) (Nat.not_le_of_lt hkN)

/-! Helper facts about the ring used by several claims. -/

theorem fenceWaitTarget_none_iff (s : RingState) (g : Nat) :
    fenceWaitTarget s g = none ↔
      (s.frameFence s.currFrameResourceIndex = 0 ∨
       s.frameFence s.currFrameResourceIndex ≤ g) := by
  unfold fenceWaitTarget
  split
  · rename_i h
    simp only [reduceCtorEq, false_iff]
    push_neg
    exact ⟨h.1, h.2⟩
  · rename_i h
    push_neg at h
    simp only [true_iff]
    by_cases hf : s.frameFence s.currFrameResourceIndex = 0
    · exact Or.inl hf
    · exact Or.inr (h hf)

theorem fenceWaitTarget_blocked (s : RingState) (g : Nat)
    (hf : s.frameFence s.currFrameResourceIndex ≠ 0)
    (hg : g < s.frameFence s.currFrameResourceIndex) :
    fenceWaitTarget s g = some (s.frameFence s.currFrameResourceIndex) := by
  unfold fenceWaitTarget
  rw [if_pos ⟨hf, hg⟩]

/-- i4CastleApp-C1.  At the start of every frame update the newly selected
slot is checked: the acquisition succeeds (the slot is populated) exactly
when the slot's recorded fence value is zero or the GPU's completed value
has reached it; whenever the recorded value is nonzero and not yet
completed the call blocks, and it stays blocked at every completed value
below the recorded one (the wait has no timeout and its only release is
the fence reaching the recorded value), so a slot still awaiting its
recorded fence value is never populated without first blocking until the
fence is satisfied. -/
theorem update_blocks_until_fence (s : RingState) (g : Nat) :
    (updateAcquire s g = some (advanceFrameIndex s) ↔
      ((advanceFrameIndex s).frameFence (advanceFrameIndex s).currFrameResourceIndex = 0 ∨
       (advanceFrameIndex s).frameFence (advanceFrameIndex s).currFrameResourceIndex ≤ g)) ∧
    ((advanceFrameIndex s).frameFence (advanceFrameIndex s).currFrameResourceIndex ≠ 0 →
      ∀ g2, g2 < (advanceFrameIndex s).frameFence (advanceFrameIndex s).currFrameResourceIndex →
        updateAcquire s g2 = none) ∧
    (∀ s', updateAcquire s g = some s' →
      fenceWaitTarget (advanceFrameIndex s) g = none) := by
  refine ⟨?_, ?_, ?_⟩
  · constructor
    · intro h
      unfold updateAcquire at h
      rcases hw : fenceWaitTarget (advanceFrameIndex s) g with _ | v
      · exact (fenceWaitTarget_none_iff (advanceFrameIndex s) g).mp hw
      · rw [hw] at h; simp at h
    · intro h
      have hw : fenceWaitTarget (advanceFrameIndex s) g = none :=
        (fenceWaitTarget_none_iff (advanceFrameIndex s) g).mpr h
      unfold updateAcquire
      rw [hw]
  · intro hf g2 hg2
    have hw := fenceWaitTarget_blocked (advanceFrameIndex s) g2 hf hg2
    unfold updateAcquire
    rw [hw]
  · intro s' h
    unfold updateAcquire at h
    rcases hw : fenceWaitTarget (advanceFrameIndex s) g with _ | v
    · rfl
    · rw [hw] at h; simp at h

/-- Witness for i4CastleApp-C1 at a concrete state: slot 1 has recorded
fence 5; acquisition from index 0 with completed value 3 blocks, and with
completed value 5 succeeds. -/
theorem update_blocks_until_fence_witness :
    (updateAcquire
        { currFrameResourceIndex := 0, frameFence := fun j => if j = 1 then 5 else 0,
          currentFence := 5 } 3 = none) ∧
    (updateAcquire
        { currFrameResourceIndex := 0, frameFence := fun j => if j = 1 then 5 else 0,
          currentFence := 5 } 5 =
      some (advanceFrameIndex
        { currFrameResourceIndex := 0, frameFence := fun j => if j = 1 then 5 else 0,
          currentFence := 5 })) := by
  constructor
  · exact (update_blocks_until_fence
      { currFrameResourceIndex := 0, frameFence := fun j => if j = 1 then 5 else 0,
        currentFence := 5 } 3).2.1 (by decide) 3 (by decide)
  · exact ((update_blocks_until_fence
      { currFrameResourceIndex := 0, frameFence := fun j => if j = 1 then 5 else 0,
        currentFence := 5 } 5).1).mpr (Or.inr (by decide))

/-- i4CastleApp-C3.  The global fence counter starts at 0; `Draw`
increments it by exactly one and records the fresh value in the submitted
slot's `Fence` field, so after `k` frames the counter equals `k`
(monotonically increasing).  Scenario with N = 3: frame 1 records fence
value 1 in its slot; at frame 4 the ring has wrapped back to that slot,
and acquiring it blocks at every GPU completed value below 1 and succeeds
as soon as the completed value reaches 1 — the value recorded at frame 1. -/
theorem fence_counter_monotone_frame4_waits_on_frame1 :
    initRing.currentFence = 0 ∧
    (∀ s : RingState,
      (drawSubmitFence s).currentFence = s.currentFence + 1 ∧
      (drawSubmitFence s).frameFence s.currFrameResourceIndex = s.currentFence + 1) ∧
    (∀ k : Nat, (framesAfter (k + 1)).currentFence = (framesAfter k).currentFence + 1) ∧
    (∀ k : Nat, (framesAfter k).currentFence = k) ∧
    (framesAfter 1).frameFence (framesAfter 1).currFrameResourceIndex = 1 ∧
    (advanceFrameIndex (framesAfter 3)).currFrameResourceIndex =
      (framesAfter 1).currFrameResourceIndex ∧
    (advanceFrameIndex (framesAfter 3)).frameFence
      (advanceFrameIndex (framesAfter 3)).currFrameResourceIndex = 1 ∧
    (∀ g, g < 1 → updateAcquire (framesAfter 3) g = none) ∧
    (∀ g, 1 ≤ g → updateAcquire (framesAfter 3) g = some (advanceFrameIndex (framesAfter 3))) := by
  refine ⟨rfl, ?_, ?_, ?_, by decide, by decide, by decide, ?_, ?_⟩
  · intro s
    refine ⟨rfl, ?_⟩
    simp [drawSubmitFence]
  · intro k
    rfl
  · intro k
    induction k with
    | zero => rfl
    | succ k ih =>
      calc (framesAfter (k + 1)).currentFence
          = (framesAfter k).currentFence + 1 := rfl
        _ = k + 1 := by rw [ih]
  · intro g hg
    have hg0 : g = 0 := by omega
    subst hg0
    rfl
  · intro g hg
    have hf : (advanceFrameIndex (framesAfter 3)).frameFence
        (advanceFrameIndex (framesAfter 3)).currFrameResourceIndex = 1 := by decide
    have hnone : fenceWaitTarget (advanceFrameIndex (framesAfter 3)) g = none := by
      refine (fenceWaitTarget_none_iff _ g).mpr (Or.inr ?_)
      rw [hf]
      exact hg
    unfold updateAcquire
    rw [hnone]

/-- Witness for i4CastleApp-C3: at GPU completed value 0 the acquisition
for frame 4 blocks, and at completed value 1 it succeeds. -/
theorem fence_counter_monotone_frame4_waits_on_frame1_witness :
    updateAcquire (framesAfter 3) 0 = none ∧
    updateAcquire (framesAfter 3) 1 = some (advanceFrameIndex (framesAfter 3)) :=
  ⟨fence_counter_monotone_frame4_waits_on_frame1.2.2.2.2.2.2.2.1 0 (by decide),
   fence_counter_monotone_frame4_waits_on_frame1.2.2.2.2.2.2.2.2 1 (by decide)⟩

/-- i4CastleApp-C4.  On every frame update the ring index advances to
`(i + 1) % N` (with N = `gNumFrameResources`); for all N ≥ 1 and any
start index i < N, the ring index sequence is periodic with period
exactly N: after N advances the same slot index recurs, and it does not
recur after any smaller positive number of advances; and in the code N
is fixed at `gNumFrameResources = 3`. -/
theorem ring_index_periodic :
    (∀ s : RingState, (advanceFrameIndex s).currFrameResourceIndex =
        advanceIndex gNumFrameResources s.currFrameResourceIndex) ∧
    (∀ N i : Nat, 1 ≤ N → i < N → iterAdvance N N i = i) ∧
    (∀ N i k : Nat, i < N → 0 < k → k < N → iterAdvance N k i ≠ i) ∧
    gNumFrameResources = 3 :=
  ⟨fun _ => rfl,
   fun N i _ hi => iterAdvance_period N i hi,
   fun N i k hi hk0 hkN => iterAdvance_no_early_return N i k hi hk0 hkN,
   rfl⟩

/-- Witness for i4CastleApp-C4: with N = 3 and start index 1 the index
recurs after 3 advances and not after 1 or 2. -/
theorem ring_index_periodic_witness :
    iterAdvance 3 3 1 = 1 ∧ iterAdvance 3 1 1 ≠ 1 ∧ iterAdvance 3 2 1 ≠ 1 :=
  ⟨ring_index_periodic.2.1 3 1 (by decide) (by decide),
   ring_index_periodic.2.2.1 3 1 1 (by decide) (by decide) (by decide),
   ring_index_periodic.2.2.1 3 1 2 (by decide) (by decide) (by decide)⟩

/-! ## Dirty-count update propagation
(RenderItem, i4CastleApp::UpdateObjectCBs, i4CastleApp::UpdateMaterialBuffer) -/

/-- 4x4 matrices as used for `XMFLOAT4X4` payload data.  The update code
only moves matrix entries (transposition), so entries are modelled
exactly, as integers. -/
abbrev Mat4 := Fin 4 → Fin 4 → Int

/-- `XMMatrixTranspose`. -/
def XMMatrixTranspose (m : Mat4) : Mat4 := fun i j => m j i

/-- The fields of `struct RenderItem` (i4CastleApp.cpp lines 23-54) that
the update path reads or writes: `World`, `TexTransform`,
`NumFramesDirty` (initialized to `gNumFrameResources`), `ObjCBIndex`,
and the `MatCBIndex` of the item's material `Mat`. -/
structure RenderItem where
  World : Mat4
  TexTransform : Mat4
  NumFramesDirty : Nat := gNumFrameResources
  ObjCBIndex : Nat
  MatCBIndex : Nat

/-- `struct ObjectConstants`: the per-object constant-buffer payload
written by `UpdateObjectCBs` (transposed world and texture transforms
plus the material index). -/
structure ObjectConstants where
  World : Mat4
  TexTransform : Mat4
  MaterialIndex : Nat
deriving DecidableEq

/-- The payload computed for a render item in `UpdateObjectCBs`
(i4CastleApp.cpp lines 400-406). -/
def objConstantsOf (e : RenderItem) : ObjectConstants :=
  { World := XMMatrixTranspose e.World
    TexTransform := XMMatrixTranspose e.TexTransform
    MaterialIndex := e.MatCBIndex }

/-- A per-object upload buffer: payload per slot index. -/
abbrev ObjectCB := Nat → ObjectConstants

/-- `UploadBuffer::CopyData(elementIndex, data)`: store `v` at slot `i`. -/
def copyData {α : Type} (cb : Nat → α) (i : Nat) (v : α) : Nat → α :=
  fun j => if j = i then v else cb j

theorem copyData_same {α : Type} (cb : Nat → α) (i : Nat) (v : α) :
    copyData cb i v i = v := by simp [copyData]

theorem copyData_other {α : Type} (cb : Nat → α) (i j : Nat) (v : α) (h : j ≠ i) :
    copyData cb i v j = cb j := by simp [copyData, h]

/-- `UpdateObjectCBs` (i4CastleApp.cpp lines 391-414): iterate all render
items; if `NumFramesDirty > 0`, copy the recomputed payload into the
current frame resource's object buffer at `ObjCBIndex` and decrement
`NumFramesDirty`. -/
def updateObjectCBs : ObjectCB → List RenderItem → ObjectCB × List RenderItem
  | cb, [] => (cb, [])
  | cb, e :: rest =>
    if e.NumFramesDirty > 0 then
      let res := updateObjectCBs (copyData cb e.ObjCBIndex (objConstantsOf e)) rest
      (res.1, { e with NumFramesDirty := e.NumFramesDirty - 1 } :: res.2)
    else
      let res := updateObjectCBs cb rest
      (res.1, e :: res.2)

/-- The per-item effect of one update cycle on the item record itself. -/
def stepRItem (e : RenderItem) : RenderItem :=
  if e.NumFramesDirty > 0 then { e with NumFramesDirty := e.NumFramesDirty - 1 } else e

/-- The fields of `Material` (d3dUtil) that the update path reads or
writes.  Scalar shading parameters are copied verbatim, so they are
modelled exactly, as rationals. -/
structure Material where
  Name : String
  MatCBIndex : Nat
  DiffuseSrvHeapIndex : Nat
  DiffuseAlbedo : ℚ × ℚ × ℚ × ℚ
  FresnelR0 : ℚ × ℚ × ℚ
  Roughness : ℚ
  MatTransform : Mat4
  NumFramesDirty : Nat := gNumFrameResources

/-- `struct MaterialData`: the per-material buffer payload written by
`UpdateMaterialBuffer` (i4CastleApp.cpp lines 428-433). -/
structure MaterialData where
  DiffuseAlbedo : ℚ × ℚ × ℚ × ℚ
  FresnelR0 : ℚ × ℚ × ℚ
  Roughness : ℚ
  MatTransform : Mat4
  DiffuseMapIndex : Nat
deriving DecidableEq

/-- The payload computed for a material in `UpdateMaterialBuffer`. -/
def matDataOf (m : Material) : MaterialData :=
  { DiffuseAlbedo := m.DiffuseAlbedo
    FresnelR0 := m.FresnelR0
    Roughness := m.Roughness
    MatTransform := XMMatrixTranspose m.MatTransform
    DiffuseMapIndex := m.DiffuseSrvHeapIndex }

/-- A per-material structured buffer: payload per `MatCBIndex`. -/
abbrev MaterialBuf := Nat → MaterialData

/-- `UpdateMaterialBuffer` (i4CastleApp.cpp lines 416-441): iterate all
materials; if `NumFramesDirty > 0`, copy the packed payload into the
current frame resource's material buffer at `MatCBIndex` and decrement
`NumFramesDirty`. -/
def updateMaterialBuffer : MaterialBuf → List Material → MaterialBuf × List Material
  | mb, [] => (mb, [])
  | mb, m :: rest =>
    if m.NumFramesDirty > 0 then
      let res := updateMaterialBuffer (copyData mb m.MatCBIndex (matDataOf m)) rest
      (res.1, { m with NumFramesDirty := m.NumFramesDirty - 1 } :: res.2)
    else
      let res := updateMaterialBuffer mb rest
      (res.1, m :: res.2)

/-- The per-material effect of one update cycle on the material record. -/
def stepMaterial (m : Material) : Material :=
  if m.NumFramesDirty > 0 then { m with NumFramesDirty := m.NumFramesDirty - 1 } else m

/-- One `FrameResource`'s CPU-writable buffers and recorded fence. -/
structure FrameResource where
  ObjectCB : ObjectCB
  MaterialBuffer : MaterialBuf
  Fence : Nat

/-- The application state that one update cycle touches: the ring index,
the N frame resources, the render items and the materials. -/
structure AppState where
  currFrameResourceIndex : Nat
  frameResources : Nat → FrameResource
  allRitems : List RenderItem
  materials : List Material

/-- One update cycle (i4CastleApp::Update, lines 209-226, as it affects
the buffers): advance the ring index, then run `UpdateObjectCBs` and
`UpdateMaterialBuffer` against the now-current frame resource only. -/
def updateCycle (s : AppState) : AppState :=
  { currFrameResourceIndex := (s.currFrameResourceIndex + 1) % gNumFrameResources
    frameResources := fun j =>
      if j = (s.currFrameResourceIndex + 1) % gNumFrameResources then
        { (s.frameResources j) with
          ObjectCB := (updateObjectCBs (s.frameResources j).ObjectCB s.allRitems).1
          MaterialBuffer :=
            (updateMaterialBuffer (s.frameResources j).MaterialBuffer s.materials).1 }
      else s.frameResources j
    allRitems := (updateObjectCBs
      ((s.frameResources ((s.currFrameResourceIndex + 1) % gNumFrameResources)).ObjectCB)
      s.allRitems).2
    materials := (updateMaterialBuffer
      ((s.frameResources ((s.currFrameResourceIndex + 1) % gNumFrameResources)).MaterialBuffer)
      s.materials).2 }

/-! Lemmas about the update pass. -/

theorem updateObjectCBs_snd (cb : ObjectCB) (items : List RenderItem) :
    (updateObjectCBs cb items).2 = items.map stepRItem := by
  induction items generalizing cb with
  | nil => simp [updateObjectCBs]
  | cons e rest ih =>
    by_cases h : e.NumFramesDirty > 0 <;>
      simp [updateObjectCBs, h, stepRItem, ih]

theorem updateObjectCBs_fst_untouched (cb : ObjectCB) (items : List RenderItem)
    (i : Nat) (h : ∀ e ∈ items, e.NumFramesDirty = 0 ∨ e.ObjCBIndex ≠ i) :
    (updateObjectCBs cb items).1 i = cb i := by
  induction items generalizing cb with
  | nil => simp [updateObjectCBs]
  | cons e rest ih =>
    have he := h e (List.mem_cons_self e rest)
    by_cases hd : e.NumFramesDirty > 0
    · have hne : e.ObjCBIndex ≠ i := by
        rcases he with h0 | hne
        · omega
        · exact hne
      have hrest : ∀ x ∈ rest, x.NumFramesDirty = 0 ∨ x.ObjCBIndex ≠ i :=
        fun x hx => h x (List.mem_cons_of_mem e hx)
      simp only [updateObjectCBs, if_pos hd]
      rw [ih _ hrest, copyData_other _ _ _ _ (Ne.symm hne)]
    · have hrest : ∀ x ∈ rest, x.NumFramesDirty = 0 ∨ x.ObjCBIndex ≠ i :=
        fun x hx => h x (List.mem_cons_of_mem e hx)
      simp only [updateObjectCBs, if_neg hd]
      exact ih _ hrest

theorem updateObjectCBs_fst_write (cb : ObjectCB) (items : List RenderItem)
    (e : RenderItem) (hmem : e ∈ items)
    (hnodup : (items.map RenderItem.ObjCBIndex).Nodup)
    (hd : e.NumFramesDirty > 0) :
    (updateObjectCBs cb items).1 e.ObjCBIndex = objConstantsOf e := by
  induction items generalizing cb with
  | nil => cases hmem
  | cons a rest ih =>
    rw [List.map_cons, List.nodup_cons] at hnodup
    rcases List.mem_cons.mp hmem with rfl | hmem'
    · simp only [updateObjectCBs, if_pos hd]
      have hrest : ∀ x ∈ rest, x.NumFramesDirty = 0 ∨ x.ObjCBIndex ≠ e.ObjCBIndex := by
        intro x hx
        right
        intro hcontra
        exact hnodup.1 (hcontra ▸ List.mem_map_of_mem RenderItem.ObjCBIndex hx)
      rw [updateObjectCBs_fst_untouched _ _ _ hrest, copyData_same]
    · by_cases hda : a.NumFramesDirty > 0
      · simp only [updateObjectCBs, if_pos hda]
        exact ih _ hmem' hnodup.2
      · simp only [updateObjectCBs, if_neg hda]
        exact ih _ hmem' hnodup.2

theorem updateMaterialBuffer_snd (mb : MaterialBuf) (mats : List Material) :
    (updateMaterialBuffer mb mats).2 = mats.map stepMaterial := by
  induction mats generalizing mb with
  | nil => simp [updateMaterialBuffer]
  | cons m rest ih =>
    by_cases h : m.NumFramesDirty > 0 <;>
      simp [updateMaterialBuffer, h, stepMaterial, ih]

theorem updateMaterialBuffer_fst_untouched (mb : MaterialBuf) (mats : List Material)
    (i : Nat) (h : ∀ m ∈ mats, m.NumFramesDirty = 0 ∨ m.MatCBIndex ≠ i) :
    (updateMaterialBuffer mb mats).1 i = mb i := by
  induction mats generalizing mb with
  | nil => simp [updateMaterialBuffer]
  | cons m rest ih =>
    have hm := h m (List.mem_cons_self m rest)
    by_cases hd : m.NumFramesDirty > 0
    · have hne : m.MatCBIndex ≠ i := by
        rcases hm with h0 | hne
        · omega
        · exact hne
      have hrest : ∀ x ∈ rest, x.NumFramesDirty = 0 ∨ x.MatCBIndex ≠ i :=
        fun x hx => h x (List.mem_cons_of_mem m hx)
      simp only [updateMaterialBuffer, if_pos hd]
      rw [ih _ hrest, copyData_other _ _ _ _ (Ne.symm hne)]
    · have hrest : ∀ x ∈ rest, x.NumFramesDirty = 0 ∨ x.MatCBIndex ≠ i :=
        fun x hx => h x (List.mem_cons_of_mem m hx)
      simp only [updateMaterialBuffer, if_neg hd]
      exact ih _ hrest

theorem stepRItem_objCBIndex (e : RenderItem) : (stepRItem e).ObjCBIndex = e.ObjCBIndex := by
  unfold stepRItem; split <;> rfl

theorem objConstantsOf_stepRItem (e : RenderItem) :
    objConstantsOf (stepRItem e) = objConstantsOf e := by
  unfold stepRItem; split <;> rfl

theorem map_stepRItem_objCBIndex (items : List RenderItem) :
    (items.map stepRItem).map RenderItem.ObjCBIndex = items.map RenderItem.ObjCBIndex := by
  rw [List.map_map]
  exact List.map_eq_map_iff.mpr fun e _ => stepRItem_objCBIndex e

/-- Projections of one update cycle: the ring index advances, items and
materials step their dirty counts, the now-current frame resource's
buffers receive the update pass, and every other frame resource is
untouched. -/
theorem updateCycle_proj (s : AppState) (idx : Nat)
    (h : (s.currFrameResourceIndex + 1) % gNumFrameResources = idx) :
    (updateCycle s).currFrameResourceIndex = idx ∧
    (updateCycle s).allRitems = s.allRitems.map stepRItem ∧
    (updateCycle s).materials = s.materials.map stepMaterial ∧
    ((updateCycle s).frameResources idx).ObjectCB =
      (updateObjectCBs ((s.frameResources idx).ObjectCB) s.allRitems).1 ∧
    ((updateCycle s).frameResources idx).MaterialBuffer =
      (updateMaterialBuffer ((s.frameResources idx).MaterialBuffer) s.materials).1 ∧
    (∀ j, j ≠ idx → (updateCycle s).frameResources j = s.frameResources j) := by
  subst h
  refine ⟨rfl, ?_, ?_, ?_, ?_, ?_⟩
  · exact updateObjectCBs_snd _ _
  · exact updateMaterialBuffer_snd _ _
  · simp [updateCycle]
  · simp [updateCycle]
  · intro j hj
    simp [updateCycle, hj]

/-- i4CastleApp-C2.  With N = `gNumFrameResources` = 3: a render item
whose dirty count is N (freshly edited before cycle 0, ring positioned
so that cycles 0, 1, 2 select frame resources 0, 1, 2) has its payload
(transposed world and texture transforms plus material index) copied
into frame resource 0's object buffer at its slot during cycle 0, into
frame resource 1's during cycle 1 and into frame resource 2's during
cycle 2, with the dirty count decremented by one each cycle, reaching 0
exactly at the end of cycle 2; all three buffered copies hold the new
payload after the three cycles, and no copy holds it before its own
turn. -/
theorem dirty_propagation (s : AppState) (e : RenderItem) (p : Nat)
    (hidx : s.currFrameResourceIndex = 2)
    (hp : s.allRitems[p]? = some e)
    (hdirty : e.NumFramesDirty = gNumFrameResources)
    (hnodup : (s.allRitems.map RenderItem.ObjCBIndex).Nodup)
    (hfresh : ∀ j, j < gNumFrameResources →
      (s.frameResources j).ObjectCB e.ObjCBIndex ≠ objConstantsOf e) :
    ((updateCycle s).frameResources 0).ObjectCB e.ObjCBIndex = objConstantsOf e ∧
    (updateCycle s).allRitems[p]? = some { e with NumFramesDirty := 2 } ∧
    ((updateCycle s).frameResources 1).ObjectCB e.ObjCBIndex ≠ objConstantsOf e ∧
    ((updateCycle s).frameResources 2).ObjectCB e.ObjCBIndex ≠ objConstantsOf e ∧
    ((updateCycle (updateCycle s)).frameResources 1).ObjectCB e.ObjCBIndex = objConstantsOf e ∧
    (updateCycle (updateCycle s)).allRitems[p]? = some { e with NumFramesDirty := 1 } ∧
    ((updateCycle (updateCycle s)).frameResources 2).ObjectCB e.ObjCBIndex ≠ objConstantsOf e ∧
    (∀ j, j < gNumFrameResources →
      ((updateCycle (updateCycle (updateCycle s))).frameResources j).ObjectCB e.ObjCBIndex =
        objConstantsOf e) ∧
    (updateCycle (updateCycle (updateCycle s))).allRitems[p]? =
      some { e with NumFramesDirty := 0 } := by
  have hmem : e ∈ s.allRitems := List.getElem?_mem hp
  have hstep1 : stepRItem e = { e with NumFramesDirty := 2 } := by
    simp [stepRItem, hdirty, gNumFrameResources]
  have hstep2 : stepRItem { e with NumFramesDirty := 2 } = { e with NumFramesDirty := 1 } := by
    simp [stepRItem]
  have hstep3 : stepRItem { e with NumFramesDirty := 1 } = { e with NumFramesDirty := 0 } := by
    simp [stepRItem]
  obtain ⟨hP1idx, hP1items, -, hP1cb, -, hP1other⟩ :=
    updateCycle_proj s 0 (by rw [hidx]; rfl)
  obtain ⟨hP2idx, hP2items, -, hP2cb, -, hP2other⟩ :=
    updateCycle_proj (updateCycle s) 1 (by rw [hP1idx]; rfl)
  obtain ⟨hP3idx, hP3items, -, hP3cb, -, hP3other⟩ :=
    updateCycle_proj (updateCycle (updateCycle s)) 2 (by rw [hP2idx]; rfl)
  -- cycle 0 writes the payload into frame resource 0
  have hc0 : ((updateCycle s).frameResources 0).ObjectCB e.ObjCBIndex = objConstantsOf e := by
    rw [hP1cb]
    exact updateObjectCBs_fst_write _ _ e hmem hnodup (by rw [hdirty]; decide)
  -- item state after each cycle
  have hi1 : (updateCycle s).allRitems[p]? = some { e with NumFramesDirty := 2 } := by
    rw [hP1items, List.getElem?_map, hp, Option.map_some', hstep1]
  have hi2 : (updateCycle (updateCycle s)).allRitems[p]? =
      some { e with NumFramesDirty := 1 } := by
    rw [hP2items, List.getElem?_map, hi1, Option.map_some', hstep2]
  have hi3 : (updateCycle (updateCycle (updateCycle s))).allRitems[p]? =
      some { e with NumFramesDirty := 0 } := by
    rw [hP3items, List.getElem?_map, hi2, Option.map_some', hstep3]
  -- nodup of slot indices is preserved by the cycles
  have hnodup1 : ((updateCycle s).allRitems.map RenderItem.ObjCBIndex).Nodup := by
    rw [hP1items, map_stepRItem_objCBIndex]; exact hnodup
  have hnodup2 : ((updateCycle (updateCycle s)).allRitems.map RenderItem.ObjCBIndex).Nodup := by
    rw [hP2items, map_stepRItem_objCBIndex]; exact hnodup1
  -- cycle 1 writes the payload into frame resource 1
  have hm1 : { e with NumFramesDirty := 2 } ∈ (updateCycle s).allRitems := by
    rw [hP1items, ← hstep1]
    exact List.mem_map_of_mem stepRItem hmem
  have hc1 : ((updateCycle (updateCycle s)).frameResources 1).ObjectCB e.ObjCBIndex =
      objConstantsOf e := by
    rw [hP2cb]
    have := updateObjectCBs_fst_write ((updateCycle s).frameResources 1).ObjectCB
      (updateCycle s).allRitems { e with NumFramesDirty := 2 } hm1 hnodup1 (by simp)
    rw [← hstep1, stepRItem_objCBIndex, objConstantsOf_stepRItem] at this
    exact this
  -- cycle 2 writes the payload into frame resource 2
  have hm2 : { e with NumFramesDirty := 1 } ∈ (updateCycle (updateCycle s)).allRitems := by
    rw [hP2items]
    have : ({ e with NumFramesDirty := 1 } : RenderItem) =
        stepRItem { e with NumFramesDirty := 2 } := hstep2.symm
    rw [this]
    exact List.mem_map_of_mem stepRItem hm1
  have hc2 : ((updateCycle (updateCycle (updateCycle s))).frameResources 2).ObjectCB
      e.ObjCBIndex = objConstantsOf e := by
    rw [hP3cb]
    have := updateObjectCBs_fst_write ((updateCycle (updateCycle s)).frameResources 2).ObjectCB
      (updateCycle (updateCycle s)).allRitems { e with NumFramesDirty := 1 } hm2 hnodup2
      (by simp)
    exact this
  -- untouched buffers before their turn
  have hu1 : ((updateCycle s).frameResources 1).ObjectCB e.ObjCBIndex ≠ objConstantsOf e := by
    rw [hP1other 1 (by decide)]; exact hfresh 1 (by decide)
  have hu2 : ((updateCycle s).frameResources 2).ObjectCB e.ObjCBIndex ≠ objConstantsOf e := by
    rw [hP1other 2 (by decide)]; exact hfresh 2 (by decide)
  have hu2' : ((updateCycle (updateCycle s)).frameResources 2).ObjectCB e.ObjCBIndex ≠
      objConstantsOf e := by
    rw [hP2other 2 (by decide)]; exact hu2
  refine ⟨hc0, hi1, hu1, hu2, hc1, hi2, hu2', ?_, hi3⟩
  intro j hj
  have hj3 : j < 3 := hj
  interval_cases j
  · rw [hP3other 0 (by decide), hP2other 0 (by decide)]; exact hc0
  · rw [hP3other 1 (by decide)]; exact hc1
  · exact hc2

/-- A concrete render item for exercising the update propagation. -/
def wItem : RenderItem :=
  { World := fun _ _ => 1
    TexTransform := fun _ _ => 2
    NumFramesDirty := 3
    ObjCBIndex := 0
    MatCBIndex := 0 }

/-- A blank per-object payload distinct from `objConstantsOf wItem`. -/
def wZeroObj : ObjectConstants :=
  { World := fun _ _ => 0, TexTransform := fun _ _ => 0, MaterialIndex := 0 }

/-- A blank per-material payload. -/
def wZeroMat : MaterialData :=
  { DiffuseAlbedo := (0, 0, 0, 0), FresnelR0 := (0, 0, 0), Roughness := 0
    MatTransform := fun _ _ => 0, DiffuseMapIndex := 0 }

/-- A concrete application state: ring positioned so the next cycle uses
frame resource 0, one freshly dirty render item, no materials. -/
def wState : AppState :=
  { currFrameResourceIndex := 2
    frameResources := fun _ =>
      { ObjectCB := fun _ => wZeroObj, MaterialBuffer := fun _ => wZeroMat, Fence := 0 }
    allRitems := [wItem]
    materials := [] }

/-- Witness for i4CastleApp-C2 at the concrete state `wState`: cycle 0
copies the payload into frame resource 0, and after three cycles the
item's dirty count is 0. -/
theorem dirty_propagation_witness :
    ((updateCycle wState).frameResources 0).ObjectCB wItem.ObjCBIndex =
      objConstantsOf wItem ∧
    (updateCycle (updateCycle (updateCycle wState))).allRitems[0]? =
      some { wItem with NumFramesDirty := 0 } :=
  ⟨(dirty_propagation wState wItem 0 rfl rfl rfl (by decide) (by decide)).1,
   (dirty_propagation wState wItem 0 rfl rfl rfl (by decide) (by decide)).2.2.2.2.2.2.2.2⟩

/-- i4CastleApp-C6.  One update cycle leaves every frame resource other
than the newly current one entirely unchanged, and within the current
frame resource's per-object and per-material buffers it leaves every
slot unchanged that no dirty item (respectively no dirty material)
is assigned to. -/
theorem update_cycle_frame_effect (s : AppState) :
    (∀ j, j ≠ (s.currFrameResourceIndex + 1) % gNumFrameResources →
      (updateCycle s).frameResources j = s.frameResources j) ∧
    (∀ i, (∀ e ∈ s.allRitems, e.NumFramesDirty = 0 ∨ e.ObjCBIndex ≠ i) →
      ((updateCycle s).frameResources
          ((s.currFrameResourceIndex + 1) % gNumFrameResources)).ObjectCB i =
        (s.frameResources
          ((s.currFrameResourceIndex + 1) % gNumFrameResources)).ObjectCB i) ∧
    (∀ i, (∀ m ∈ s.materials, m.NumFramesDirty = 0 ∨ m.MatCBIndex ≠ i) →
      ((updateCycle s).frameResources
          ((s.currFrameResourceIndex + 1) % gNumFrameResources)).MaterialBuffer i =
        (s.frameResources
          ((s.currFrameResourceIndex + 1) % gNumFrameResources)).MaterialBuffer i) := by
  obtain ⟨-, -, -, hcb, hmb, hother⟩ := updateCycle_proj s _ rfl
  refine ⟨hother, ?_, ?_⟩
  · intro i hi
    rw [hcb]
    exact updateObjectCBs_fst_untouched _ _ i hi
  · intro i hi
    rw [hmb]
    exact updateMaterialBuffer_fst_untouched _ _ i hi

/-- Witness for i4CastleApp-C6 at the concrete state `wState` (next
current frame resource is 0): frame resource 2 is untouched, the object
slot 5 (assigned to no item) is untouched, and the material slot 0
(there are no materials) is untouched. -/
theorem update_cycle_frame_effect_witness :
    (updateCycle wState).frameResources 2 = wState.frameResources 2 ∧
    ((updateCycle wState).frameResources 0).ObjectCB 5 =
      (wState.frameResources 0).ObjectCB 5 ∧
    ((updateCycle wState).frameResources 0).MaterialBuffer 0 =
      (wState.frameResources 0).MaterialBuffer 0 :=
  ⟨(update_cycle_frame_effect wState).1 2 (by decide),
   (update_cycle_frame_effect wState).2.1 5 (by decide),
   (update_cycle_frame_effect wState).2.2 0 (by decide)⟩

/-! ## Geometry packing (i4CastleApp::BuildShapeGeometry) -/

/-- A procedurally generated mesh as consumed by `BuildShapeGeometry`:
its vertex list and its index list (`GeometryGenerator::MeshData`). -/
structure MeshData (V : Type) where
  Vertices : List V
  Indices32 : List Nat

/-- The sequential offset computation of `BuildShapeGeometry`
(i4CastleApp.cpp lines 660-689): the first offset is the accumulator,
and each following offset adds the previous element count. -/
def offsetsFrom (acc : Nat) : List Nat → List Nat
  | [] => []
  | c :: rest => acc :: offsetsFrom (acc + c) rest

/-- Per-mesh vertex counts, in mesh order. -/
def vertexCounts {V : Type} (meshes : List (MeshData V)) : List Nat :=
  meshes.map fun m => m.Vertices.length

/-- Per-mesh index counts, in mesh order. -/
def indexCounts {V : Type} (meshes : List (MeshData V)) : List Nat :=
  meshes.map fun m => m.Indices32.length

/-- The recorded `BaseVertexLocation` of every mesh: the cached vertex
offsets starting at `boxVertexOffset = 0` (lines 660-673). -/
def recordedVertexOffsets {V : Type} (meshes : List (MeshData V)) : List Nat :=
  offsetsFrom 0 (vertexCounts meshes)

/-- The recorded `StartIndexLocation` of every mesh: the cached index
offsets starting at `boxIndexOffset = 0` (lines 676-689). -/
def recordedIndexOffsets {V : Type} (meshes : List (MeshData V)) : List Nat :=
  offsetsFrom 0 (indexCounts meshes)

/-- The single shared vertex buffer: the vertices of all the meshes
packed in mesh order (lines 783-872). -/
def concatVertices {V : Type} (meshes : List (MeshData V)) : List V :=
  (meshes.map fun m => m.Vertices).flatten

/-- The single shared index buffer: each mesh's indices inserted in mesh
order, values unchanged (lines 875-889); `BaseVertexLocation` is added
at draw time. -/
def concatIndices {V : Type} (meshes : List (MeshData V)) : List Nat :=
  (meshes.map fun m => m.Indices32).flatten

theorem offsetsFrom_getElem (counts : List Nat) (acc k : Nat) (hk : k < counts.length) :
    (offsetsFrom acc counts)[k]? = some (acc + (counts.take k).sum) := by
  induction counts generalizing acc k with
  | nil => simp at hk
  | cons c rest ih =>
    cases k with
    | zero => simp [offsetsFrom]
    | succ k =>
      have hk' : k < rest.length := by simpa using hk
      calc (offsetsFrom acc (c :: rest))[k + 1]?
          = (offsetsFrom (acc + c) rest)[k]? := by simp [offsetsFrom]
        _ = some (acc + c + (rest.take k).sum) := ih (acc + c) k hk'
        _ = some (acc + ((c :: rest).take (k + 1)).sum) := by
            simp [List.take_succ_cons, Nat.add_assoc]

theorem flatten_getElem_prefix {α : Type} (ls : List (List α)) (k i : Nat) (L : List α)
    (hk : ls[k]? = some L) (hi : i < L.length) :
    ls.flatten[((ls.map List.length).take k).sum + i]? = L[i]? := by
  induction ls generalizing k with
  | nil => simp at hk
  | cons A rest ih =>
    cases k with
    | zero =>
      have hAL : A = L := by simpa using hk
      subst hAL
      simpa using List.getElem?_append_left hi
    | succ k =>
      have hk' : rest[k]? = some L := by simpa using hk
      have hsum : ((List.map List.length (A :: rest)).take (k + 1)).sum
          = A.length + ((List.map List.length rest).take k).sum := by
        simp [List.take_succ_cons]
      rw [hsum, List.flatten_cons, Nat.add_assoc,
        List.getElem?_append_right (Nat.le_add_right A.length _),
        Nat.add_sub_cancel_left]
      exact ih k hk'

theorem sum_take_mono (l : List Nat) (m n : Nat) (h : m ≤ n) :
    (l.take m).sum ≤ (l.take n).sum := by
  induction l generalizing m n with
  | nil => simp
  | cons c rest ih =>
    cases m with
    | zero => simp
    | succ m =>
      cases n with
      | zero => omega
      | succ n =>
        have := ih m n (Nat.succ_le_succ_iff.mp h)
        simp only [List.take_succ_cons, List.sum_cons]
        omega

/-- Offset of the slice following mesh `k` is at most the offset of any
later mesh `k'`. -/
theorem sum_take_succ_of_getElem (l : List Nat) (k c : Nat) (h : l[k]? = some c) :
    (l.take (k + 1)).sum = (l.take k).sum + c := by
  induction l generalizing k with
  | nil => simp at h
  | cons a rest ih =>
    cases k with
    | zero =>
      have ha : a = c := by simpa using h
      simp [ha]
    | succ k =>
      have := ih k (by simpa using h)
      simp only [List.take_succ_cons, List.sum_cons, this]
      omega

theorem offset_slice_le {V : Type} (meshes : List (MeshData V)) (k k' : Nat)
    (M : MeshData V) (hk : meshes[k]? = some M) (hkk : k < k') :
    ((vertexCounts meshes).take k).sum + M.Vertices.length ≤
      ((vertexCounts meshes).take k').sum := by
  have hsome : (vertexCounts meshes)[k]? = some M.Vertices.length := by
    unfold vertexCounts
    rw [List.getElem?_map, hk, Option.map_some']
  have hstep := sum_take_succ_of_getElem (vertexCounts meshes) k M.Vertices.length hsome
  have hmono := sum_take_mono (vertexCounts meshes) (k + 1) k' hkk
  omega

/-- i4CastleApp-C5.  Geometry packing: (a) the recorded base-vertex
offset of the k-th mesh equals the sum of the vertex counts of the
preceding meshes, and the recorded start-index offset equals the sum of
their index counts; (b) the shared index buffer holds each mesh's index
values unchanged at its recorded start-index offset, in mesh order;
(c) an index value of mesh k plus the mesh's recorded base-vertex offset
addresses exactly the vertex of mesh k it named; and (d) that address
lies in no other mesh's vertex range (no cross-mesh aliasing). -/
theorem geometry_packing_no_aliasing {V : Type} :
    (∀ (meshes : List (MeshData V)) (k : Nat), k < meshes.length →
      (recordedVertexOffsets meshes)[k]? = some (((vertexCounts meshes).take k).sum) ∧
      (recordedIndexOffsets meshes)[k]? = some (((indexCounts meshes).take k).sum)) ∧
    (∀ (meshes : List (MeshData V)) (k j : Nat) (M : MeshData V) (b : Nat),
      meshes[k]? = some M → (recordedIndexOffsets meshes)[k]? = some b →
      j < M.Indices32.length →
      (concatIndices meshes)[b + j]? = M.Indices32[j]?) ∧
    (∀ (meshes : List (MeshData V)) (k idx : Nat) (M : MeshData V) (b : Nat),
      meshes[k]? = some M → (recordedVertexOffsets meshes)[k]? = some b →
      idx < M.Vertices.length →
      (concatVertices meshes)[idx + b]? = M.Vertices[idx]?) ∧
    (∀ (meshes : List (MeshData V)) (k k' idx : Nat) (M M' : MeshData V) (b b' : Nat),
      meshes[k]? = some M → meshes[k']? = some M' →
      (recordedVertexOffsets meshes)[k]? = some b →
      (recordedVertexOffsets meshes)[k']? = some b' →
      idx < M.Vertices.length → k' ≠ k →
      ¬(b' ≤ idx + b ∧ idx + b < b' + M'.Vertices.length)) := by
  have hofflen : ∀ (meshes : List (MeshData V)) (k : Nat), k < meshes.length →
      (recordedVertexOffsets meshes)[k]? = some (((vertexCounts meshes).take k).sum) := by
    intro meshes k hk
    have hlt : k < (vertexCounts meshes).length := by
      unfold vertexCounts; simpa using hk
    have := offsetsFrom_getElem (vertexCounts meshes) 0 k hlt
    simpa [recordedVertexOffsets] using this
  have hofflen' : ∀ (meshes : List (MeshData V)) (k : Nat), k < meshes.length →
      (recordedIndexOffsets meshes)[k]? = some (((indexCounts meshes).take k).sum) := by
    intro meshes k hk
    have hlt : k < (indexCounts meshes).length := by
      unfold indexCounts; simpa using hk
    have := offsetsFrom_getElem (indexCounts meshes) 0 k hlt
    simpa [recordedIndexOffsets] using this
  have hmemlen : ∀ (meshes : List (MeshData V)) (k : Nat) (M : MeshData V),
      meshes[k]? = some M → k < meshes.length := by
    intro meshes k M hk
    by_contra hlen
    rw [List.getElem?_eq_none (Nat.le_of_not_lt hlen)] at hk
    cases hk
  refine ⟨fun meshes k hk => ⟨hofflen meshes k hk, hofflen' meshes k hk⟩, ?_, ?_, ?_⟩
  · intro meshes k j M b hk hb hj
    have hklen := hmemlen meshes k M hk
    rw [hofflen' meshes k hklen] at hb
    have hbval : b = ((indexCounts meshes).take k).sum := (Option.some.inj hb).symm
    subst hbval
    have hmap : (meshes.map fun m => m.Indices32)[k]? = some M.Indices32 := by
      rw [List.getElem?_map, hk, Option.map_some']
    have := flatten_getElem_prefix (meshes.map fun m => m.Indices32) k j M.Indices32 hmap hj
    have hcounts : (meshes.map fun m => m.Indices32).map List.length = indexCounts meshes := by
      simp [indexCounts, List.map_map]
    rw [hcounts] at this
    exact this
  · intro meshes k idx M b hk hb hidx
    have hklen := hmemlen meshes k M hk
    rw [hofflen meshes k hklen] at hb
    have hbval : b = ((vertexCounts meshes).take k).sum := (Option.some.inj hb).symm
    subst hbval
    have hmap : (meshes.map fun m => m.Vertices)[k]? = some M.Vertices := by
      rw [List.getElem?_map, hk, Option.map_some']
    have := flatten_getElem_prefix (meshes.map fun m => m.Vertices) k idx M.Vertices hmap hidx
    have hcounts : (meshes.map fun m => m.Vertices).map List.length = vertexCounts meshes := by
      simp [vertexCounts, List.map_map]
    rw [hcounts] at this
    rw [Nat.add_comm idx (((vertexCounts meshes).take k).sum)]
    exact this
  · intro meshes k k' idx M M' b b' hk hk' hb hb' hidx hkk
    have hklen := hmemlen meshes k M hk
    have hklen' := hmemlen meshes k' M' hk'
    rw [hofflen meshes k hklen] at hb
    rw [hofflen meshes k' hklen'] at hb'
    have hbval : b = ((vertexCounts meshes).take k).sum := (Option.some.inj hb).symm
    have hbval' : b' = ((vertexCounts meshes).take k').sum := (Option.some.inj hb').symm
    subst hbval
    subst hbval'
    rcases Nat.lt_or_ge k k' with hlt | hge
    · have := offset_slice_le meshes k k' M hk hlt
      intro hcon
      omega
    · have hlt' : k' < k := Nat.lt_of_le_of_ne hge hkk
      have := offset_slice_le meshes k' k M' hk' hlt'
      intro hcon
      omega

/-- Witness for i4CastleApp-C5 on two concrete meshes: the second mesh's
recorded base-vertex offset is 2 (the first mesh's vertex count), its
index 1 addresses vertex 30 of the second mesh, and that address is
outside the first mesh's range. -/
theorem geometry_packing_no_aliasing_witness :
    (recordedVertexOffsets [MeshData.mk [10, 20] [0, 1], MeshData.mk [30, 40] [1, 0]])[1]? =
      some 2 ∧
    (concatVertices [MeshData.mk [10, 20] [0, 1], MeshData.mk [30, 40] [1, 0]])[0 + 2]? =
      some 30 ∧
    ¬((0 : Nat) ≤ 0 + 2 ∧ 0 + 2 < 0 + 2) := by
  refine ⟨?_, ?_, ?_⟩
  · have := (geometry_packing_no_aliasing.1
      [MeshData.mk [10, 20] [0, 1], MeshData.mk [30, 40] [1, 0]] 1 (by decide)).1
    rw [this]
    decide
  · have := geometry_packing_no_aliasing.2.2.1
      [MeshData.mk [10, 20] [0, 1], MeshData.mk [30, 40] [1, 0]] 1 0
      (MeshData.mk [30, 40] [1, 0]) 2 rfl (by decide) (by decide)
    rw [this]
    decide
  · exact geometry_packing_no_aliasing.2.2.2
      [MeshData.mk [10, 20] [0, 1], MeshData.mk [30, 40] [1, 0]] 1 0 0
      (MeshData.mk [30, 40] [1, 0]) (MeshData.mk [10, 20] [0, 1]) 2 0
      rfl rfl (by decide) (by decide) (by decide) (by decide)

/-! ## Paired cylinder placement (i4CastleApp::BuildRenderItems, lines 1220-1254) -/

/-- 4x4 matrices with exact rational entries, modelling the
DirectXMath row-vector convention matrices used in `BuildRenderItems`. -/
abbrev Mat4Q := Fin 4 → Fin 4 → ℚ

/-- Row-vector 4x4 matrix product (`operator*` on `XMMATRIX`). -/
def matMul (A B : Mat4Q) : Mat4Q := fun i j =>
  A i 0 * B 0 j + A i 1 * B 1 j + A i 2 * B 2 j + A i 3 * B 3 j

/-- `XMMatrixScaling(sx, sy, sz)`. -/
def XMMatrixScaling (sx sy sz : ℚ) : Mat4Q := fun i j =>
  match i.val, j.val with
  | 0, 0 => sx
  | 1, 1 => sy
  | 2, 2 => sz
  | 3, 3 => 1
  | _, _ => 0

/-- `XMMatrixTranslation(x, y, z)`: identity with the translation in
row 3 (row-vector convention). -/
def XMMatrixTranslationRV (x y z : ℚ) : Mat4Q := fun i j =>
  match i.val, j.val with
  | 3, 0 => x
  | 3, 1 => y
  | 3, 2 => z
  | 0, 0 => 1
  | 1, 1 => 1
  | 2, 2 => 1
  | 3, 3 => 1
  | _, _ => 0

/-- `XMMATRIX brickTexTransform = XMMatrixScaling(1.0f, 3.0f, 1.0f);`
(line 1220). -/
def brickTexTransform : Mat4Q := XMMatrixScaling 1 3 1

/-- `leftCylWorld = XMMatrixTranslation(-3.0f, 2.f, 1.5f + i*8.9f)`
(line 1230), with the loop counter as a rational. -/
def leftCylWorld (i : ℚ) : Mat4Q :=
  XMMatrixTranslationRV (-3) 2 (3 / 2 + i * (89 / 10))

/-- `rightCylWorld = XMMatrixTranslation(+3.0f, 2.f, 1.5f + i*8.9f)`
(line 1231). -/
def rightCylWorld (i : ℚ) : Mat4Q :=
  XMMatrixTranslationRV 3 2 (3 / 2 + i * (89 / 10))

/-- `XMStoreFloat4x4(&leftCylRitem->World, brickTexTransform * rightCylWorld);`
(line 1236): the item named left is built from the right-hand transform. -/
def leftCylRitemWorld (i : ℚ) : Mat4Q := matMul brickTexTransform (rightCylWorld i)

/-- `XMStoreFloat4x4(&rightCylRitem->World, brickTexTransform * leftCylWorld);`
(line 1246): the item named right is built from the left-hand transform. -/
def rightCylRitemWorld (i : ℚ) : Mat4Q := matMul brickTexTransform (leftCylWorld i)

/-- i4CastleApp-C7.  In the paired cylinder/sphere placement loop the
left and right world transforms are swapped relative to their variable
names: `leftCylRitem`'s world is computed from `rightCylWorld` and ends
with translation x = +3, while `rightCylRitem`'s world is computed from
`leftCylWorld` and ends with translation x = -3. -/
theorem left_right_cylinder_swap (i : ℚ) :
    leftCylRitemWorld i = matMul brickTexTransform (rightCylWorld i) ∧
    rightCylRitemWorld i = matMul brickTexTransform (leftCylWorld i) ∧
    leftCylWorld i 3 0 = -3 ∧
    rightCylWorld i 3 0 = 3 ∧
    leftCylRitemWorld i 3 0 = 3 ∧
    rightCylRitemWorld i 3 0 = -3 := by
  refine ⟨rfl, rfl, rfl, rfl, ?_, ?_⟩
  · show (0 : ℚ) * 1 + 0 * 0 + 0 * 0 + 1 * 3 = 3
    norm_num
  · show (0 : ℚ) * 1 + 0 * 0 + 0 * 0 + 1 * (-3) = -3
    norm_num

/-! ## Error handling (WinMain, i4CastleApp.cpp lines 128-149) -/

/-- `DxException` as thrown by `ThrowIfFailed`: the failed HRESULT and
the location data it carries for its diagnostic. -/
structure DxException where
  ErrorCode : Int
  FunctionName : String
  Filename : String
  LineNumber : Nat
deriving DecidableEq

/-- The possible outcomes of the `try` block of `WinMain`: `Initialize`
returning false, a normal `Run()` returning an exit code, or a
`DxException` propagating out of a failed device/API call. -/
inductive AppRun where
  | initFailed : AppRun
  | ran : Int → AppRun
  | threw : DxException → AppRun
deriving DecidableEq

/-- What `WinMain` produces: the diagnostic shown in a message box, if
any, and the process exit code. -/
structure WinMainResult where
  displayedDiagnostic : Option DxException
  exitCode : Int
deriving DecidableEq

/-- `WinMain` (i4CastleApp.cpp lines 128-149): a failed `Initialize`
returns 0; a normal run returns `Run()`'s code; a thrown `DxException`
is caught once by the single `catch`, its diagnostic displayed via
`MessageBox(..., e.ToString().c_str(), L"HR Failed", ...)`, and 0 is
returned — the run is never restarted. -/
def winMain (r : AppRun) : WinMainResult :=
  match r with
  | .initFailed => { displayedDiagnostic := none, exitCode := 0 }
  | .ran code => { displayedDiagnostic := none, exitCode := code }
  | .threw e => { displayedDiagnostic := some e, exitCode := 0 }

/-- i4CastleApp-C8.  Every device/API failure surfaced as a thrown
`DxException` leads `WinMain` to display the exception's diagnostic and
exit with code 0 — fatal termination with no recovery and no retry; a
run that does not throw displays no diagnostic. -/
theorem winmain_fatal_on_dx_exception :
    (∀ e : DxException,
      winMain (.threw e) = { displayedDiagnostic := some e, exitCode := 0 }) ∧
    (∀ c : Int,
      winMain (.ran c) = { displayedDiagnostic := none, exitCode := c }) ∧
    winMain .initFailed = { displayedDiagnostic := none, exitCode := 0 } :=
  ⟨fun _ => rfl, fun _ => rfl, rfl⟩

/-! ## Scene data (i4CastleApp::BuildMaterials, i4CastleApp::BuildRenderItems,
i4CastleApp::BuildFrameResources) -/

/-- The fields of each material set up in `BuildMaterials`
(i4CastleApp.cpp lines 975-1022). -/
structure MaterialDesc where
  Name : String
  MatCBIndex : Nat
  DiffuseSrvHeapIndex : Nat
  DiffuseAlbedo : ℚ × ℚ × ℚ × ℚ
  FresnelR0 : ℚ × ℚ × ℚ
  Roughness : ℚ
deriving DecidableEq

/-- `bricks0` (lines 977-983). -/
def bricks0 : MaterialDesc :=
  { Name := "bricks0", MatCBIndex := 0, DiffuseSrvHeapIndex := 0
    DiffuseAlbedo := (1, 1, 1, 1), FresnelR0 := (1/50, 1/50, 1/50), Roughness := 1/10 }

/-- `stone0` (lines 985-991). -/
def stone0 : MaterialDesc :=
  { Name := "stone0", MatCBIndex := 1, DiffuseSrvHeapIndex := 1
    DiffuseAlbedo := (1, 1, 1, 1), FresnelR0 := (1/20, 1/20, 1/20), Roughness := 3/10 }

/-- `tile0` (lines 993-999). -/
def tile0 : MaterialDesc :=
  { Name := "tile0", MatCBIndex := 2, DiffuseSrvHeapIndex := 2
    DiffuseAlbedo := (1, 1, 1, 1), FresnelR0 := (1/50, 1/50, 1/50), Roughness := 3/10 }

/-- `crate0` (lines 1001-1007). -/
def crate0 : MaterialDesc :=
  { Name := "crate0", MatCBIndex := 3, DiffuseSrvHeapIndex := 3
    DiffuseAlbedo := (1, 1, 1, 1), FresnelR0 := (1/20, 1/20, 1/20), Roughness := 1/5 }

/-- `diamondMat`, named `"diaMat"` (lines 1009-1015): constructed but
never inserted into `mMaterials` — the insertion at line 1021 is
commented out. -/
def diamondMat : MaterialDesc :=
  { Name := "diaMat", MatCBIndex := 4, DiffuseSrvHeapIndex := 4
    DiffuseAlbedo := (0, 0, 1, 1), FresnelR0 := (1/20, 1/20, 1/20), Roughness := 3/10 }

/-- The materials actually registered in `mMaterials` by `BuildMaterials`
(lines 1017-1020): exactly four. -/
def mMaterials : List MaterialDesc := [bricks0, stone0, tile0, crate0]

/-- The per-render-item data relevant to indexing: the `ObjCBIndex`, the
name of the material assigned to `Mat`, and the `DrawArgs` key used for
the geometry sub-range. -/
structure RItemDesc where
  ObjCBIndex : Nat
  MatName : String
  DrawArg : String
deriving DecidableEq

/-- The 50 render items pushed onto `mAllRitems` by `BuildRenderItems`
(i4CastleApp.cpp lines 1025-1517), in push order; the four-iteration
loops (lines 1223-1279, 1284-1340) and the two-iteration wall loops
(lines 1439-1511) are unrolled. -/
def buildRenderItemsList : List RItemDesc :=
  [ { ObjCBIndex := 0, MatName := "bricks0", DrawArg := "cylinder" },
    { ObjCBIndex := 1, MatName := "bricks0", DrawArg := "container" },
    { ObjCBIndex := 2, MatName := "stone0", DrawArg := "pyramid" },
    { ObjCBIndex := 3, MatName := "stone0", DrawArg := "pyramid" },
    { ObjCBIndex := 4, MatName := "stone0", DrawArg := "cone" },
    { ObjCBIndex := 5, MatName := "stone0", DrawArg := "cylinder" },
    { ObjCBIndex := 6, MatName := "stone0", DrawArg := "hexagon" },
    { ObjCBIndex := 7, MatName := "tile0", DrawArg := "triangularPrism" },
    { ObjCBIndex := 8, MatName := "tile0", DrawArg := "triangularPrism" },
    { ObjCBIndex := 9, MatName := "tile0", DrawArg := "triangularPrism" },
    { ObjCBIndex := 10, MatName := "stone0", DrawArg := "diamond" },
    { ObjCBIndex := 11, MatName := "crate0", DrawArg := "box" },
    { ObjCBIndex := 12, MatName := "stone0", DrawArg := "grid" },
    { ObjCBIndex := 13, MatName := "stone0", DrawArg := "wedge" },
    { ObjCBIndex := 14, MatName := "tile0", DrawArg := "octahedron" },
    { ObjCBIndex := 15, MatName := "tile0", DrawArg := "octahedron" },
    -- cylinder/sphere loop, i = 0
    { ObjCBIndex := 16, MatName := "stone0", DrawArg := "octagon" },
    { ObjCBIndex := 17, MatName := "stone0", DrawArg := "octagon" },
    { ObjCBIndex := 18, MatName := "stone0", DrawArg := "sphere" },
    { ObjCBIndex := 19, MatName := "stone0", DrawArg := "sphere" },
    -- cylinder/sphere loop, i = 1
    { ObjCBIndex := 20, MatName := "stone0", DrawArg := "octagon" },
    { ObjCBIndex := 21, MatName := "stone0", DrawArg := "octagon" },
    { ObjCBIndex := 22, MatName := "stone0", DrawArg := "sphere" },
    { ObjCBIndex := 23, MatName := "stone0", DrawArg := "sphere" },
    -- hexagon/cone loop, i = 0
    { ObjCBIndex := 24, MatName := "crate0", DrawArg := "hexagon" },
    { ObjCBIndex := 25, MatName := "crate0", DrawArg := "hexagon" },
    { ObjCBIndex := 26, MatName := "crate0", DrawArg := "cone" },
    { ObjCBIndex := 27, MatName := "crate0", DrawArg := "cone" },
    -- hexagon/cone loop, i = 1
    { ObjCBIndex := 28, MatName := "crate0", DrawArg := "hexagon" },
    { ObjCBIndex := 29, MatName := "crate0", DrawArg := "hexagon" },
    { ObjCBIndex := 30, MatName := "crate0", DrawArg := "cone" },
    { ObjCBIndex := 31, MatName := "crate0", DrawArg := "cone" },
    { ObjCBIndex := 32, MatName := "crate0", DrawArg := "wedge" },
    { ObjCBIndex := 33, MatName := "crate0", DrawArg := "wedge" },
    { ObjCBIndex := 34, MatName := "crate0", DrawArg := "wedge" },
    { ObjCBIndex := 35, MatName := "crate0", DrawArg := "cylinder" },
    { ObjCBIndex := 36, MatName := "crate0", DrawArg := "star" },
    { ObjCBIndex := 37, MatName := "crate0", DrawArg := "box" },
    { ObjCBIndex := 38, MatName := "crate0", DrawArg := "box" },
    { ObjCBIndex := 39, MatName := "crate0", DrawArg := "box" },
    -- wall loops (objCBIndex 40..49), unrolled
    { ObjCBIndex := 40, MatName := "crate0", DrawArg := "box" },
    { ObjCBIndex := 41, MatName := "crate0", DrawArg := "box" },
    { ObjCBIndex := 42, MatName := "crate0", DrawArg := "box" },
    { ObjCBIndex := 43, MatName := "crate0", DrawArg := "box" },
    { ObjCBIndex := 44, MatName := "crate0", DrawArg := "box" },
    { ObjCBIndex := 45, MatName := "crate0", DrawArg := "box" },
    { ObjCBIndex := 46, MatName := "crate0", DrawArg := "box" },
    { ObjCBIndex := 47, MatName := "crate0", DrawArg := "box" },
    { ObjCBIndex := 48, MatName := "crate0", DrawArg := "box" },
    { ObjCBIndex := 49, MatName := "crate0", DrawArg := "box" } ]

/-- The per-object constant-buffer capacity each `FrameResource` is
allocated with: `BuildFrameResources` (lines 966-973) passes
`(UINT)mAllRitems.size()` as the object count. -/
def frameResourceObjectCount : Nat := buildRenderItemsList.length

/-- The material-buffer capacity each `FrameResource` is allocated with:
`BuildFrameResources` passes `(UINT)mMaterials.size()`. -/
def frameResourceMaterialCount : Nat := mMaterials.length

/-- i4CastleApp-C9.  `BuildRenderItems` builds exactly 50 render items
whose `ObjCBIndex` values are, in push order, exactly 0 through 49 —
pairwise distinct and each strictly below the per-object buffer capacity
(`mAllRitems.size()` = 50) that `BuildFrameResources` allocates, so
every per-object buffer write and per-object address computation stays
within capacity. -/
theorem objcb_indices_exactly_range :
    buildRenderItemsList.map RItemDesc.ObjCBIndex = List.range 50 ∧
    buildRenderItemsList.length = 50 ∧
    (buildRenderItemsList.map RItemDesc.ObjCBIndex).Nodup ∧
    (∀ r ∈ buildRenderItemsList, r.ObjCBIndex < frameResourceObjectCount) := by
  refine ⟨by decide, by decide, by decide, by decide⟩

/-- Witness for i4CastleApp-C9 at the first render item. -/
theorem objcb_indices_exactly_range_witness :
    ({ ObjCBIndex := 0, MatName := "bricks0", DrawArg := "cylinder" } :
      RItemDesc).ObjCBIndex < frameResourceObjectCount :=
  objcb_indices_exactly_range.2.2.2
    { ObjCBIndex := 0, MatName := "bricks0", DrawArg := "cylinder" }
    (List.mem_cons_self _ _)

/-- i4CastleApp-C10.  `BuildMaterials` registers exactly four materials
with `MatCBIndex` 0 through 3; the material named `"diaMat"` (with
`MatCBIndex` 4 and `DiffuseSrvHeapIndex` 4) is constructed but never
inserted into the material map and is referenced by no render item;
every render item's material is one of the four registered ones, so
every registered `MatCBIndex`, and the material index stored for any
render item, is strictly below the material-buffer capacity of 4. -/
theorem materials_registered_and_in_range :
    mMaterials.map MaterialDesc.Name = ["bricks0", "stone0", "tile0", "crate0"] ∧
    mMaterials.map MaterialDesc.MatCBIndex = [0, 1, 2, 3] ∧
    diamondMat.Name = "diaMat" ∧
    diamondMat.MatCBIndex = 4 ∧
    diamondMat.DiffuseSrvHeapIndex = 4 ∧
    "diaMat" ∉ mMaterials.map MaterialDesc.Name ∧
    (∀ r ∈ buildRenderItemsList, r.MatName ≠ "diaMat") ∧
    (∀ r ∈ buildRenderItemsList, r.MatName ∈ mMaterials.map MaterialDesc.Name) ∧
    frameResourceMaterialCount = 4 ∧
    (∀ m ∈ mMaterials, m.MatCBIndex < frameResourceMaterialCount) ∧
    (∀ r ∈ buildRenderItemsList, ∀ m ∈ mMaterials, m.Name = r.MatName →
      m.MatCBIndex < frameResourceMaterialCount) := by
  refine ⟨by decide, by decide, by decide, by decide, by decide, by decide,
    by decide, by decide, by decide, by decide, by decide⟩

/-- Witness for i4CastleApp-C10 at the first render item and the
material assigned to it. -/
theorem materials_registered_and_in_range_witness :
    ({ ObjCBIndex := 0, MatName := "bricks0", DrawArg := "cylinder" } :
      RItemDesc).MatName ∈ mMaterials.map MaterialDesc.Name ∧
    bricks0.MatCBIndex < frameResourceMaterialCount :=
  ⟨materials_registered_and_in_range.2.2.2.2.2.2.2.1
      { ObjCBIndex := 0, MatName := "bricks0", DrawArg := "cylinder" }
      (List.mem_cons_self _ _),
   materials_registered_and_in_range.2.2.2.2.2.2.2.2.2.1 bricks0
      (List.mem_cons_self _ _)⟩

end Castle
